import Mathlib

/-!
A shallow embedding, in Lean 4, of the meeting-notes processing pipeline
(coordinator, hybrid extractor, browser scraper, analyst normalization,
write-back agent) of this repository, together with theorems settling the
specification's testable properties against the embedded code.

Conventions used throughout:
* JavaScript/TypeScript functions become Lean functions; the outcomes of
  external calls (Notion API, OpenAI, Playwright, timers) are passed in as
  explicit environment parameters, so each embedded function is a pure,
  executable description of the source function's control flow.
* JavaScript string truthiness (`if (s)`) is modelled as "present and
  non-empty"; `x || ''` keeps a truthy value and collapses a falsy one to
  the empty string.
* Where the source loops (`while`, `for`) we use structural recursion on an
  explicit bound taken from the loop's own bound.
-/

/- ### String helpers (evaluable substitutes for JS string operations) -/

/-- Case folding used to model JavaScript's case-insensitive regex flag `i`
on the marker patterns: ASCII `A`-`Z` and Cyrillic `А`-`Я` (plus `Ё`) are
mapped to lowercase; every other character is unchanged. -/
def jsLower (c : Char) : Char :=
  if 'A' ≤ c ∧ c ≤ 'Z' then Char.ofNat (c.toNat + 32)
  else if 'А' ≤ c ∧ c ≤ 'Я' then Char.ofNat (c.toNat + 32)
  else if c = 'Ё' then 'ё'
  else c

/-- Lowercase an entire character list. -/
def lowerL (cs : List Char) : List Char := cs.map jsLower

/-- Does `pat` occur as a contiguous run inside `s`? (Executable infix test;
`List.IsInfix` from the library is a `Prop` and does not evaluate.) -/
def infixL (pat : List Char) : List Char → Bool
  | [] => pat.isEmpty
  | c :: rest => pat.isPrefixOf (c :: rest) || infixL pat rest

/-- JS `String.prototype.trim`, modelled over the character list with the
core whitespace set (space, tab, newline, carriage return). -/
def trimL (cs : List Char) : List Char :=
  ((cs.dropWhile Char.isWhitespace).reverse.dropWhile Char.isWhitespace).reverse

/-- Trim on `String` via `trimL`. -/
def jsTrim (s : String) : String := String.mk (trimL s.toList)

/-- JS truthiness of an optional string: the value is present and non-empty. -/
def truthyS : Option String → Bool
  | some s => s ≠ ""
  | none => false

/- ### Target-section markers

The source tests raw text against the regex `/AI Summary|Summary|Саммари|Резюме/i`
(scraper.ts line 144, extractor/index.js line 221, extract.js line 190). -/

/-- The marker alternatives of the regex, already lowercased. -/
def markerPatterns : List (List Char) :=
  ["ai summary".toList, "summary".toList, "саммари".toList, "резюме".toList]

/-- `markerFound s` models `/AI Summary|Summary|Саммари|Резюме/i.test(s)`. -/
def markerFound (s : String) : Bool :=
  markerPatterns.any (fun pat => infixL pat (lowerL s.toList))

/- ### Scroll Loader (`smartScroll`, scraper.ts lines 19-46 and
src/unnamed/part_013 lines 35-62; both copies are literally identical).

The environment is `h : Nat → Nat`, where `h i` is the rendered document
height observed by the `i`-th `page.evaluate` height read (the read made
when `scrollCount = i`).  The function returns the number of scroll actions
performed (the final value of `scrollCount`). -/

/-- One loop step of `smartScroll`: `prev` is `previousHeight`, `count` is
`scrollCount`, and the fuel is `maxScrolls - scrollCount` (the loop guard
`scrollCount < maxScrolls`). -/
def smartScrollGo (h : Nat → Nat) : Nat → Nat → Nat → Nat
  | _, count, 0 => count
  | prev, count, fuel + 1 =>
    let cur := h count
    if cur = prev then count
    else smartScrollGo h cur (count + 1) fuel

/-- `smartScroll` with height environment `h` and bound `maxScrolls`:
`previousHeight` starts at `0`, `scrollCount` at `0`. Returns the number of
scrolls performed. -/
def smartScroll (h : Nat → Nat) (maxScrolls : Nat) : Nat :=
  smartScrollGo h 0 0 maxScrolls

/-- `prevAt h i` is the value of `previousHeight` at the `i`-th height read:
`0` before the first read, and `h (i-1)` afterwards. -/
def prevAt (h : Nat → Nat) : Nat → Nat
  | 0 => 0
  | i + 1 => h i

/- ### ScraperResult and the Retry Wrapper (`scrapeWithRetry`,
scraper.ts lines 210-235). -/

/-- `ScraperResult` (types.ts): `success`, optional `content`, optional
`error`. -/
structure ScraperResult where
  success : Bool
  content : Option String := none
  error : Option String := none
  deriving Repr, DecidableEq

/-- The fixed message returned by `scrapeWithRetry` after exhausting all
attempts (scraper.ts line 233). -/
def retryExhaustedMsg (maxRetries : Nat) : String :=
  "Не удалось извлечь контент после " ++ toString maxRetries ++ " попыток"

/-- A trace of one `scrapeWithRetry` run: how many times the wrapped
operation was called, the sleep durations (ms) in order, and the returned
result. -/
structure RetryTrace where
  calls : Nat
  sleeps : List Nat
  result : ScraperResult
  deriving Repr, DecidableEq

/-- The body of `scrapeWithRetry`'s `for` loop. `outcome i` is the
`ScraperResult` produced by the `i`-th call of `scrapeMeetingContent`
(`i = attempt`, starting at 1); the fuel is `maxRetries - attempt + 1`,
the number of loop iterations left. -/
def retryGo (outcome : Nat → ScraperResult) (maxRetries : Nat) :
    Nat → Nat → RetryTrace
  | _, 0 =>
    { calls := 0, sleeps := [], result := { success := false, error := some (retryExhaustedMsg maxRetries) } }
  | attempt, fuel + 1 =>
    let r := outcome attempt
    if r.success then { calls := 1, sleeps := [], result := r }
    else if attempt < maxRetries then
      let rest := retryGo outcome maxRetries (attempt + 1) fuel
      { calls := rest.calls + 1, sleeps := (2 ^ attempt * 1000) :: rest.sleeps, result := rest.result }
    else
      { calls := 1, sleeps := [],
        result := { success := false, error := some (retryExhaustedMsg maxRetries) } }

/-- `scrapeWithRetry` (scraper.ts lines 210-235) as a trace: attempts run
from 1 to `maxRetries`; a failed attempt `k < maxRetries` sleeps
`2^k * 1000` ms before the next one; exhaustion returns the fixed message
`retryExhaustedMsg maxRetries`. -/
def scrapeWithRetry (outcome : Nat → ScraperResult) (maxRetries : Nat) : RetryTrace :=
  retryGo outcome maxRetries 1 maxRetries

example : smartScroll (fun i => min 3 (i + 1) * 100) 20 = 3 := by decide
example :
    (scrapeWithRetry (fun _ => { success := false, error := some "XYZZY" }) 3).calls = 3 := by
  decide
example :
    (scrapeWithRetry (fun _ => { success := false, error := some "XYZZY" }) 3).sleeps
      = [2000, 4000] := by
  decide

/- ### API Extraction Agent and Hybrid Extractor
(`extractViaAPI`, `extractData`, src/apps/extractor/index.js lines 180-318).

The environment of `extractViaAPI` is the list of per-block texts produced
by `extractTextFromBlock` on the blocks fetched by `getAllBlocksRecursive`
(one entry per fetched block, possibly empty); an empty list models the
`allBlocks.length === 0` failure.  String length counts characters, which
agrees with JS `.length` on the BMP text this code handles. -/

/-- `ExtractResult`: the result shape of the hybrid extractor
(`{success, content?, error?, method?}`). -/
structure ExtractResult where
  success : Bool
  content : Option String := none
  error : Option String := none
  method : Option String := none
  deriving Repr, DecidableEq

/-- At position `p` of the lowercased text, try the regex alternatives
`AI Summary|Summary|Саммари|Резюме` in order; return the matched length. -/
def matchAltAt (low : List Char) (p : Nat) : Option Nat :=
  markerPatterns.findSome? fun pat =>
    if pat.isPrefixOf (low.drop p) then some pat.length else none

/-- The character class `[A-ZА-Я]` of the summary-slicing regex. -/
def isUpperAZ (c : Char) : Bool :=
  ('A' ≤ c && c ≤ 'Z') || ('А' ≤ c && c ≤ 'Я')

/-- The lookahead `(?=\n\n(?:[A-ZА-Я]|$)|$)` of the summary-slicing regex,
tested at position `j`. -/
def lookaheadAt (cs : List Char) (j : Nat) : Bool :=
  j == cs.length ||
  (match cs.drop j with
   | '\n' :: '\n' :: [] => true
   | '\n' :: '\n' :: c :: _ => isUpperAZ c
   | _ => false)

/-- Lazy extension of `[\s\S]*?`: the least `j` at or after the marker end
satisfying the lookahead (the end of the string always does). -/
def findEndGo (cs : List Char) : Nat → Nat → Nat
  | 0, j => j
  | fuel + 1, j => if lookaheadAt cs j then j else findEndGo cs fuel (j + 1)

/-- Leftmost match position of the marker alternation, with matched length. -/
def findMarkerGo (low : List Char) : Nat → Nat → Option (Nat × Nat)
  | 0, _ => none
  | fuel + 1, p =>
    match matchAltAt low p with
    | some len => some (p, len)
    | none => findMarkerGo low fuel (p + 1)

/-- `fullText.match(/(?:AI Summary|Summary|Саммари|Резюме)[\s\S]*?(?=\n\n(?:[A-ZА-Я]|$)|$)/i)`
(extractor/index.js lines 235-237): the leftmost, lazily-extended match. -/
def sliceSummary (s : String) : Option String :=
  let cs := s.toList
  let low := lowerL cs
  match findMarkerGo low (cs.length + 1) 0 with
  | none => none
  | some (p, len) =>
    let j := findEndGo cs (cs.length + 1 - (p + len)) (p + len)
    some (String.mk ((cs.drop p).take (j - p)))

/-- `extractViaAPI` (extractor/index.js lines 180-264). `notionToken` models
`process.env.NOTION_TOKEN`; `blockTexts` the per-block extracted texts. -/
def extractViaAPI (notionToken : Option String) (blockTexts : List String) :
    ExtractResult :=
  match notionToken with
  | none =>
    { success := false, error := some "NOTION_TOKEN не установлен в переменных окружения" }
  | some _ =>
    if blockTexts.length = 0 then
      { success := false, error := some "Не удалось получить блоки страницы через API" }
    else
      let allText := blockTexts.filter (fun t => t ≠ "")
      let foundSummary := allText.any markerFound
      let fullText := String.intercalate "\n\n" allText
      if foundSummary || fullText.length > 100 then
        if foundSummary then
          match sliceSummary fullText with
          | some m => { success := true, content := some (jsTrim m) }
          | none => { success := true, content := some (jsTrim fullText) }
        else { success := true, content := some (jsTrim fullText) }
      else
        { success := false, error := some "API вернул блоки, но не удалось найти контент AI Summary" }

/-- `extractData` (extractor/index.js lines 271-318), the hybrid extractor.
`playwrightResult` is the environment's outcome of `extractViaPlaywright`;
the second component counts how many times `extractViaPlaywright` is
invoked. -/
def extractData (pageId : String) (notionToken : Option String)
    (blockTexts : List String) (playwrightResult : ExtractResult) :
    ExtractResult × Nat :=
  if pageId = "" then
    ({ success := false, error := some "Не указан page_id" }, 0)
  else
    let apiResult := extractViaAPI notionToken blockTexts
    if apiResult.success && truthyS apiResult.content then
      ({ apiResult with method := some "api" }, 0)
    else if playwrightResult.success && truthyS playwrightResult.content then
      ({ playwrightResult with method := some "playwright" }, 1)
    else
      ({ success := false,
         error := some ("API: " ++ apiResult.error.getD "неизвестная ошибка"
           ++ "; Playwright: " ++ playwrightResult.error.getD "неизвестная ошибка") }, 1)

/- ### Browser session acquisition
(`extractViaPlaywright`, src/unnamed/part_013 lines 77-123, and
`scrapeMeetingContent`, scraper.ts lines 62-95). -/

/-- How a browser run starts: which context it proceeds with, or an
immediate failure before any navigation. -/
inductive SessionStart
  | tokenContext
  | savedSession
  | freshContext
  | failNoAuth (error : String)
  deriving Repr, DecidableEq

/-- The actionable error returned by `extractViaPlaywright` when neither a
token nor a saved session is available (part_013 line 121). -/
def noAuthMsg : String :=
  "Не удалось авторизоваться. Установите NOTION_TOKEN в .env или запустите setup-auth.js для создания сессии."

/-- Session acquisition of `extractViaPlaywright` (part_013 lines 77-123):
try the access token first (cookie injection, best effort), then the saved
session file, else fail immediately. -/
def extractViaPlaywrightSession (notionToken : Option String)
    (cookiesOk : Bool) (authFileExists : Bool) : SessionStart :=
  let ctxAfterToken : Option SessionStart :=
    match notionToken with
    | some _ => if cookiesOk then some .tokenContext else none
    | none => none
  match ctxAfterToken with
  | some c => c
  | none => if authFileExists then .savedSession else .failNoAuth noAuthMsg

/-- Does the run go on to `page.goto` (navigation and content extraction)? -/
def sessionProceedsToNavigation : SessionStart → Bool
  | .failNoAuth _ => false
  | _ => true

/-- Session acquisition of `scrapeMeetingContent` (scraper.ts lines 62-95):
use the saved session file if it exists and parses; otherwise create a
fresh context without a session and continue — there is no token path and
no failure path. -/
def scrapeMeetingContentSession (authFileExists parseOk : Bool) : SessionStart :=
  if authFileExists && parseOk then .savedSession else .freshContext

example :
    (extractData "p" (some "tk") ["short text, no marker here"]
      { success := true, content := some "browser text" }).1.method = some "playwright" := by
  decide
example :
    (extractData "p" (some "tk") ["short text, no marker here"]
      { success := true, content := some "browser text" }).2 = 1 := by
  decide
example : extractViaPlaywrightSession none true false = .failNoAuth noAuthMsg := by decide
example : scrapeMeetingContentSession false false = .freshContext := by decide

/- ### Coordinator (`processPage`, `updatePageStatus`, `findPagesToProcess`,
`runCoordinator`; src/unnamed/part_014).

`updatePageStatus` rethrows a failed Notion update (lines 132-136), so a
failed status write throws inside `processPage`'s `try`.  The environment
gives the outcome of the `i`-th `updatePageStatus` call of one
`processPage` run (`updOk i = true` means the Notion update succeeded), and
whether each pipeline stage yielded a usable result:
`scraperOk` is `scraperResult.success && scraperResult.content` (line 162),
`analystOk` is `analystResult.success && analystResult.data` (line 175),
`writerOk` is `writerResult.success` (line 193). -/

/-- The status enum (`MeetingStatus`, types.ts line 12). -/
inductive MStatus
  | ready
  | processing
  | done
  | error
  deriving Repr, DecidableEq

/-- The string value written to the status property for each `MStatus`. -/
def statusName : MStatus → String
  | .ready => "Ready to Process"
  | .processing => "Processing"
  | .done => "Done"
  | .error => "Error"

/-- Events of one `processPage` run, in order: status-update attempts (with
the Notion outcome) and the three pipeline stages. -/
inductive PEvent
  | upd (s : MStatus) (ok : Bool)
  | scrape
  | analyze
  | writeBack
  deriving Repr, DecidableEq

/-- Environment of one `processPage` run. -/
structure ProcEnv where
  updOk : Nat → Bool
  scraperOk : Bool
  analystOk : Bool
  writerOk : Bool

/-- `processPage` (part_014 lines 142-214) as its event trace.  The `try`
block writes `Processing` first, runs scraper → analyst → writer, then
writes `Done`; any throw (a failed status write included) lands in the
`catch`, which attempts a final `Error` write whose own failure is only
logged (lines 208-212). -/
def processPage (env : ProcEnv) : List PEvent :=
  if env.updOk 0 = false then
    [.upd .processing false, .upd .error (env.updOk 1)]
  else if env.scraperOk = false then
    [.upd .processing true, .scrape, .upd .error (env.updOk 1)]
  else if env.analystOk = false then
    [.upd .processing true, .scrape, .analyze, .upd .error (env.updOk 1)]
  else if env.writerOk = false then
    [.upd .processing true, .scrape, .analyze, .writeBack, .upd .error (env.updOk 1)]
  else if env.updOk 1 = false then
    [.upd .processing true, .scrape, .analyze, .writeBack, .upd .done false,
     .upd .error (env.updOk 2)]
  else
    [.upd .processing true, .scrape, .analyze, .writeBack, .upd .done true]

/-- The sequence of status values actually written to the page: the
successful `upd` events, in order. -/
def observedStatuses (evs : List PEvent) : List MStatus :=
  evs.filterMap fun e =>
    match e with
    | .upd s true => some s
    | _ => none

/-- `findPagesToProcess` (part_014 lines 65-109): the whole query is wrapped
in `try/catch`; a throwing query is logged and yields `[]`. The environment
is the outcome of `notion.databases.query` (page ids on success). -/
def findPagesToProcess (queryOutcome : Except String (List String)) : List String :=
  match queryOutcome with
  | .ok pages => pages
  | .error _ => []

/-- Outcome of one iteration of `runCoordinator`'s `while (true)` loop. -/
structure CycleOutcome where
  processed : List String
  waitMs : Nat
  terminated : Bool
  deriving Repr, DecidableEq

/-- One poll cycle of `runCoordinator` (part_014 lines 231-255).  The `try`
block finds pages, processes them sequentially in discovery order, and
sleeps `pollInterval`; the `catch` sleeps a fixed `30000` ms.  Both
`findPagesToProcess` and `processPage` catch their own errors internally,
so the body below never reaches the `catch` branch. -/
def runCoordinatorCycle (queryOutcome : Except String (List String))
    (pollInterval : Nat) : CycleOutcome :=
  let body : Except String (List String × Nat) := do
    let pages := findPagesToProcess queryOutcome
    pure (pages, pollInterval)
  match body with
  | .ok (pages, w) => { processed := pages, waitMs := w, terminated := false }
  | .error _ => { processed := [], waitMs := 30000, terminated := false }

/- ### Write-Back Agent (`createTasks`, `updateMeetingPage`, `writeToNotion`;
src/apps/agent-worker/src/agents/writer.ts).

The environment gives `createOutcome i`: the outcome of `notion.pages.create`
for the `i`-th action item (`some id` on success, `none` when the call
throws), and the outcomes of the two possible `blocks.children.append`
calls (`none` = succeeds, `some e` = throws `e`). -/

/-- An action item as the writer receives it (types.ts lines 32-38). -/
structure WActionItem where
  title : String
  description : Option String := none
  assignee : Option String := none
  dueDate : Option String := none
  priority : Option String := none
  deriving Repr, DecidableEq

/-- The `properties` record built for one task (writer.ts lines 21-79):
`Name` always; the optional fields only when truthy. -/
def taskProperties (it : WActionItem) : List (String × String) :=
  [("Name", it.title)]
    ++ (if truthyS it.description then [("Description", it.description.getD "")] else [])
    ++ (if truthyS it.assignee then [("Assignee", it.assignee.getD "")] else [])
    ++ (if truthyS it.dueDate then [("Due Date", it.dueDate.getD "")] else [])
    ++ (if truthyS it.priority then [("Priority", it.priority.getD "")] else [])

/-- The per-item creation attempts of `createTasks` (writer.ts lines 19-95),
in order: the built properties and the creation outcome.  A `none` outcome
models the `catch` branch (logged, skipped); the loop continues with the
next item either way. -/
def createTasksAttempts (createOutcome : Nat → Option String) :
    List WActionItem → Nat → List (List (String × String) × Option String)
  | [], _ => []
  | it :: rest, i =>
    (taskProperties it, createOutcome i) :: createTasksAttempts createOutcome rest (i + 1)

/-- `createTasks` (writer.ts lines 12-98): the ids of the successfully
created tasks, in order. -/
def createTasks (items : List WActionItem) (createOutcome : Nat → Option String) :
    List String :=
  (createTasksAttempts createOutcome items 0).filterMap (·.2)

/-- The blocks `updateMeetingPage` appends to the meeting page. -/
inductive NBlock
  | heading (text : String)
  | bullet (text : String)
  | callout (text : String)
  deriving Repr, DecidableEq

/-- The summary part of `updateMeetingPage` (writer.ts lines 156-181): a
callout is appended only when `summary` is truthy; a throwing append yields
the error. Returns (blocks appended, thrown error if any). -/
def summaryAppend (summary : Option String) (appendSummaryErr : Option String) :
    List NBlock × Option String :=
  match summary with
  | some s =>
    if s ≠ "" then
      match appendSummaryErr with
      | some e => ([], some e)
      | none => ([NBlock.callout s], none)
    else ([], none)
  | none => ([], none)

/-- `updateMeetingPage` (writer.ts lines 103-187): when `taskIds` is
non-empty, append a heading plus a bullet stating the created-task count;
then, when a truthy `summary` is present, append it as a callout.  Any
append error is rethrown (line 185).  Returns (blocks appended before the
first failure, thrown error if any). -/
def updateMeetingPage (taskIds : List String) (summary : Option String)
    (appendTasksErr appendSummaryErr : Option String) :
    List NBlock × Option String :=
  if taskIds.length > 0 then
    match appendTasksErr with
    | some e => ([], some e)
    | none =>
      let tb := [NBlock.heading "📋 Созданные задачи",
                 NBlock.bullet ("Создано " ++ toString taskIds.length ++ " задач из встречи")]
      let s := summaryAppend summary appendSummaryErr
      (tb ++ s.1, s.2)
  else
    summaryAppend summary appendSummaryErr

/-- `WriterResult` (types.ts lines 46-50). -/
structure WriterResult where
  success : Bool
  taskIds : Option (List String) := none
  error : Option String := none
  deriving Repr, DecidableEq

/-- `writeToNotion` (writer.ts lines 192-228).  Takes the writer-relevant
parts of `StructuredMeetingData` (`keyDecisions` is not used by the writer).
Creates tasks; fails when no task was created though items were requested;
otherwise annotates the page, turning an annotation throw into a failed
result via the surrounding `catch` (lines 220-227). -/
def writeToNotion (items : List WActionItem) (summary : Option String)
    (createOutcome : Nat → Option String)
    (appendTasksErr appendSummaryErr : Option String) : WriterResult :=
  let taskIds := createTasks items createOutcome
  if taskIds.length = 0 ∧ items.length > 0 then
    { success := false, error := some "Не удалось создать ни одной задачи" }
  else
    match (updateMeetingPage taskIds summary appendTasksErr appendSummaryErr).2 with
    | some e => { success := false, error := some ("Ошибка при записи в Notion: " ++ e) }
    | none => { success := true, taskIds := some taskIds }

/- ### Structured Extraction Agent normalization
(`analyzeMeetingContent`, src/apps/agent-worker/src/agents/analyst.ts
lines 90-113).

The parsed model reply is a JSON value; `undefined` (an absent object
property) is modelled as an absent field (`Option.none`), distinct from
JSON `null`. -/

/-- A JSON value as produced by `JSON.parse`. -/
inductive Json
  | null
  | bool (b : Bool)
  | num (n : Int)
  | str (s : String)
  | arr (elems : List Json)
  | obj (fields : List (String × Json))

/-- Property access `j.key`: `none` models `undefined`. -/
def getField (j : Json) (key : String) : Option Json :=
  match j with
  | .obj fields => (fields.find? (fun f => f.1 = key)).map (·.2)
  | _ => none

/-- JavaScript truthiness of a JSON value (`undefined` is handled by the
callers via `Option`). -/
def jsTruthy : Json → Bool
  | .null => false
  | .bool b => b
  | .num n => n ≠ 0
  | .str s => s ≠ ""
  | .arr _ => true
  | .obj _ => true

/-- `item.title || ''` (analyst.ts lines 98 and 107): a truthy `title` is
kept as-is (the code does not coerce it to a string), anything falsy or
absent collapses to the empty string. -/
def titleOf (item : Json) : Json :=
  match getField item "title" with
  | some t => if jsTruthy t then t else .str ""
  | none => .str ""

/-- A normalized action item (analyst.ts lines 97-103): canonical field set,
optional fields passed through unchanged. -/
structure AActionItem where
  title : Json
  description : Option Json
  assignee : Option Json
  dueDate : Option Json
  priority : Option Json

/-- A normalized key decision (analyst.ts lines 106-110). -/
structure AKeyDecision where
  title : Json
  description : Option Json
  context : Option Json

/-- The normalized `StructuredMeetingData` built at analyst.ts lines 95-113. -/
structure AMeetingData where
  actionItems : List AActionItem
  keyDecisions : List AKeyDecision
  summary : Option Json

/-- The action-item mapper of the normalization (analyst.ts lines 97-103). -/
def normActionItem (item : Json) : AActionItem :=
  { title := titleOf item
    description := getField item "description"
    assignee := getField item "assignee"
    dueDate := getField item "dueDate"
    priority := getField item "priority" }

/-- The key-decision mapper of the normalization (analyst.ts lines 106-110). -/
def normKeyDecision (d : Json) : AKeyDecision :=
  { title := titleOf d
    description := getField d "description"
    context := getField d "context" }

/-- The whole normalization step of `analyzeMeetingContent` (analyst.ts
lines 95-113): a non-array or missing `actionItems`/`keyDecisions` becomes
`[]`; `summary` passes through as-is. -/
def normalizeAnalyst (jsonData : Json) : AMeetingData :=
  { actionItems :=
      match getField jsonData "actionItems" with
      | some (.arr xs) => xs.map normActionItem
      | _ => []
    keyDecisions :=
      match getField jsonData "keyDecisions" with
      | some (.arr xs) => xs.map normKeyDecision
      | _ => []
    summary := getField jsonData "summary" }

/-- Render an optional field of a normalized record back into a JSON object
field list (an absent field stays absent, matching the behaviour of an
`undefined` property on re-access). -/
def optField (key : String) : Option Json → List (String × Json)
  | some v => [(key, v)]
  | none => []

/-- A normalized action item viewed again as the JSON value the normalized
in-memory object denotes. -/
def encodeActionItem (a : AActionItem) : Json :=
  .obj ([("title", a.title)]
    ++ optField "description" a.description
    ++ optField "assignee" a.assignee
    ++ optField "dueDate" a.dueDate
    ++ optField "priority" a.priority)

/-- A normalized key decision viewed again as a JSON value. -/
def encodeKeyDecision (d : AKeyDecision) : Json :=
  .obj ([("title", d.title)]
    ++ optField "description" d.description
    ++ optField "context" d.context)

/-- A normalized `StructuredMeetingData` viewed again as the JSON value it
denotes, i.e. the shape in which the analyst's own output would re-enter
the normalization. -/
def encodeMeetingData (d : AMeetingData) : Json :=
  .obj ([("actionItems", .arr (d.actionItems.map encodeActionItem)),
         ("keyDecisions", .arr (d.keyDecisions.map encodeKeyDecision))]
    ++ optField "summary" d.summary)

/- ### Lemmas about the Scroll Loader -/

/-- The loop performs at most `fuel` further scrolls. -/
theorem smartScrollGo_le (h : Nat → Nat) :
    ∀ fuel prev count, smartScrollGo h prev count fuel ≤ count + fuel := by
  intro fuel
  induction fuel with
  | zero => intro prev count; simp [smartScrollGo]
  | succ n ih =>
    intro prev count
    simp only [smartScrollGo]
    split
    · omega
    · have := ih (h count) (count + 1)
      omega

/-- If the first height repeat is at read `k`, the loop stops there with
`scrollCount = k`, provided the fuel reaches past `k`. -/
theorem smartScrollGo_first_repeat (h : Nat → Nat) (k : Nat)
    (hrep : h k = prevAt h k) (hfirst : ∀ i, i < k → h i ≠ prevAt h i) :
    ∀ fuel c, c ≤ k → k < c + fuel → smartScrollGo h (prevAt h c) c fuel = k := by
  intro fuel
  induction fuel with
  | zero => intro c h1 h2; omega
  | succ n ih =>
    intro c h1 h2
    by_cases hc : c = k
    · subst hc
      simp [smartScrollGo, hrep]
    · have hck : c < k := lt_of_le_of_ne h1 hc
      have hne := hfirst c hck
      simp only [smartScrollGo]
      rw [if_neg hne]
      exact ih (c + 1) hck (by omega)

/-- C6: for every (monotonically non-decreasing) height sequence the Scroll
Loader terminates within `maxScrolls` iterations, and when the observed
height first repeats at read `k < maxScrolls` (heights strictly change at
every earlier read, including the initial `previousHeight = 0`), the loop
performs exactly `k` scroll actions, stopping on that first repeat. -/
theorem smartScroll_terminates_and_counts (h : Nat → Nat) (m k : Nat)
    (hmono : ∀ i j, i ≤ j → h i ≤ h j) (hk : k < m)
    (hrep : h k = prevAt h k) (hfirst : ∀ i, i < k → h i ≠ prevAt h i) :
    smartScroll h m = k ∧ ∀ bound, smartScroll h bound ≤ bound := by
  constructor
  · have := smartScrollGo_first_repeat h k hrep hfirst m 0 (Nat.zero_le k) (by omega)
    simpa [smartScroll, prevAt] using this
  · intro bound
    have := smartScrollGo_le h bound 0 0
    simpa [smartScroll] using this

/-- C6 witness: heights 100, 200, 300, 300, … stabilize at read 3, and the
loop with `maxScrolls = 20` performs exactly 3 scrolls. -/
theorem smartScroll_terminates_and_counts_witness :
    smartScroll (fun i => min 3 (i + 1) * 100) 20 = 3 :=
  (smartScroll_terminates_and_counts (fun i => min 3 (i + 1) * 100) 20 3
    (fun i j hij => Nat.mul_le_mul_right 100 (min_le_min (le_refl 3) (by omega)))
    (by decide) (by decide) (by decide)).1

/- ### Lemmas about the Retry Wrapper -/

/-- When every attempt fails, the loop runs through its whole fuel: one call
per remaining attempt, a backoff sleep after each non-final attempt, and the
fixed exhaustion message at the end. -/
theorem retryGo_all_fail (outcome : Nat → ScraperResult) (m : Nat)
    (hfail : ∀ i, (outcome i).success = false) :
    ∀ fuel attempt, 1 ≤ attempt → attempt + fuel = m + 1 →
      retryGo outcome m attempt fuel =
        { calls := fuel,
          sleeps := (List.range' attempt (fuel - 1)).map (fun k => 2 ^ k * 1000),
          result := { success := false, content := none,
                      error := some (retryExhaustedMsg m) } } := by
  intro fuel
  induction fuel with
  | zero => intro attempt h1 h2; simp [retryGo]
  | succ n ih =>
    intro attempt h1 h2
    simp only [retryGo, hfail attempt]
    by_cases hlt : attempt < m
    · obtain ⟨n', rfl⟩ : ∃ n', n = n' + 1 := ⟨n - 1, by omega⟩
      rw [if_neg (by simp), if_pos hlt, ih (attempt + 1) (by omega) (by omega)]
      simp [List.range'_succ]
    · obtain rfl : n = 0 := by omega
      obtain rfl : attempt = m := by omega
      rw [if_neg (by simp), if_neg hlt]
      simp [List.range']

/-- C5 (amended): for every `n ≥ 1`, `scrapeWithRetry` with `maxRetries = n`
around an always-failing operation calls it exactly `n` times, sleeps
exactly `n - 1` times with delay `2^k * 1000` ms before attempt `k + 1`
(`k = 1, …, n-1`), and after exhaustion returns a failure carrying the
fixed message `retryExhaustedMsg n`, which states the attempt count but
does not include the last failure's message. -/
theorem scrapeWithRetry_exhaustion (outcome : Nat → ScraperResult) (n : Nat)
    (hn : 1 ≤ n) (hfail : ∀ i, (outcome i).success = false) :
    (scrapeWithRetry outcome n).calls = n ∧
    (scrapeWithRetry outcome n).sleeps =
      (List.range' 1 (n - 1)).map (fun k => 2 ^ k * 1000) ∧
    (scrapeWithRetry outcome n).result =
      { success := false, content := none, error := some (retryExhaustedMsg n) } := by
  have h := retryGo_all_fail outcome n hfail n 1 (le_refl 1) (by omega)
  refine ⟨?_, ?_, ?_⟩ <;> simp [scrapeWithRetry, h]

/-- C5 witness: three always-failing attempts make exactly 3 calls, sleep
2000 ms and 4000 ms, and end with the fixed exhaustion message. -/
theorem scrapeWithRetry_exhaustion_witness :
    1 ≤ 3 ∧
    ((scrapeWithRetry (fun _ => { success := false, error := some "boom" }) 3).calls = 3 ∧
     (scrapeWithRetry (fun _ => { success := false, error := some "boom" }) 3).sleeps =
       (List.range' 1 (3 - 1)).map (fun k => 2 ^ k * 1000) ∧
     (scrapeWithRetry (fun _ => { success := false, error := some "boom" }) 3).result =
       { success := false, content := none, error := some (retryExhaustedMsg 3) }) :=
  ⟨by decide,
   scrapeWithRetry_exhaustion (fun _ => { success := false, error := some "boom" }) 3
     (by decide) (fun _ => rfl)⟩

/-- C5 counterexample: with two attempts that both fail with message
`"XYZZY"`, the returned error is the fixed exhaustion message, which does
not contain the last failure's message `"XYZZY"` at all — so the result is
not the last failure's message prefixed with the attempt count. -/
theorem scrapeWithRetry_error_drops_last_message :
    (scrapeWithRetry (fun _ => { success := false, error := some "XYZZY" }) 2).result.error
      = some (retryExhaustedMsg 2) ∧
    infixL "XYZZY".toList (retryExhaustedMsg 2).toList = false := by
  constructor
  · decide
  · decide

/- ### Lemmas about the Hybrid Extractor -/

/-- The API Extraction Agent fails whenever no block text contains a target
marker and the concatenated text has at most 100 characters. -/
theorem extractViaAPI_fails_short_unmarked (tk : String) (blockTexts : List String)
    (hnomark : ∀ t ∈ blockTexts, markerFound t = false)
    (hshort : (String.intercalate "\n\n" (blockTexts.filter (fun t => t ≠ ""))).length ≤ 100) :
    (extractViaAPI (some tk) blockTexts).success = false := by
  unfold extractViaAPI
  by_cases hb : blockTexts.length = 0
  · simp [hb]
  · have hfound : (blockTexts.filter (fun t => t ≠ "")).any markerFound = false := by
      rw [List.any_eq_false]
      intro t ht
      have := hnomark t (List.mem_of_mem_filter ht)
      simp [this]
    rw [if_neg hb]
    simp only [hfound, Bool.false_or, decide_eq_true_eq]
    rw [if_neg (by omega)]

/-- C2 (amended): when the API extraction yields text of fewer than 100
characters with no target marker in any block, the hybrid `extractData`
invokes the Playwright browser agent exactly once, and — absent forced
failure of that agent — returns its result with `method = "playwright"`
(the code's tag for the browser method; the literal string is
`"playwright"`, not `"browser"`). -/
theorem extractData_falls_back_to_browser (pageId tk : String)
    (blockTexts : List String) (pw : ExtractResult) (c : String)
    (hpid : pageId ≠ "")
    (hnomark : ∀ t ∈ blockTexts, markerFound t = false)
    (hshort : (String.intercalate "\n\n" (blockTexts.filter (fun t => t ≠ ""))).length < 100)
    (hpw : pw.success = true) (hc : pw.content = some c) (hcne : c ≠ "") :
    (extractData pageId (some tk) blockTexts pw).2 = 1 ∧
    (extractData pageId (some tk) blockTexts pw).1 = { pw with method := some "playwright" } := by
  have hapi := extractViaAPI_fails_short_unmarked tk blockTexts hnomark (by omega)
  unfold extractData
  rw [if_neg hpid]
  simp only [hapi, Bool.false_and, Bool.false_eq_true, if_false, hpw, hc, truthyS,
    Bool.true_and]
  rw [if_pos (by simp [hcne])]
  exact ⟨rfl, rfl⟩

/-- C2 counterexample: a 26-character API text with no marker triggers the
fallback, which is invoked exactly once and succeeds — but the returned
`method` is the string `"playwright"`, not `"browser"` as claimed. -/
theorem extractData_method_is_playwright_not_browser :
    (∀ t ∈ ["short text, no marker here"], markerFound t = false) ∧
    (String.intercalate "\n\n"
      (["short text, no marker here"].filter (fun t => t ≠ ""))).length < 100 ∧
    (extractData "p" (some "tk") ["short text, no marker here"]
      { success := true, content := some "browser text", error := none, method := none }).2 = 1 ∧
    (extractData "p" (some "tk") ["short text, no marker here"]
      { success := true, content := some "browser text", error := none, method := none }).1.method
      = some "playwright" ∧
    (extractData "p" (some "tk") ["short text, no marker here"]
      { success := true, content := some "browser text", error := none, method := none }).1.method
      ≠ some "browser" := by
  refine ⟨by decide, by decide, by decide, by decide, by decide⟩

/-- C2 witness: the amended fallback theorem applied at a concrete
40-character-class input with a succeeding browser result. -/
theorem extractData_falls_back_to_browser_witness :
    (extractData "page1" (some "tk") ["forty characters of text, marker-free!!"]
      { success := true, content := some "scrolled text", error := none, method := none }).2 = 1 ∧
    (extractData "page1" (some "tk") ["forty characters of text, marker-free!!"]
      { success := true, content := some "scrolled text", error := none, method := none }).1
      = { success := true, content := some "scrolled text", error := none,
          method := some "playwright" } :=
  extractData_falls_back_to_browser "page1" "tk"
    ["forty characters of text, marker-free!!"]
    { success := true, content := some "scrolled text", error := none, method := none }
    "scrolled text" (by decide) (by decide) (by decide) rfl rfl (by decide)

/- ### Theorems about browser session acquisition (C9) -/

/-- C9 (amended): the standalone extractor's `extractViaPlaywright` fails
immediately with the actionable no-auth error — never reaching navigation
or content extraction, never blocking on input — when no session state file
exists and no access token is supplied; the agent-worker's
`scrapeMeetingContent`, by contrast, does not fail in the no-session case
but proceeds to navigate with a fresh unauthenticated context. -/
theorem extractViaPlaywright_fails_fast_without_auth (cookiesOk parseOk : Bool) :
    extractViaPlaywrightSession none cookiesOk false = SessionStart.failNoAuth noAuthMsg ∧
    sessionProceedsToNavigation (extractViaPlaywrightSession none cookiesOk false) = false ∧
    sessionProceedsToNavigation (scrapeMeetingContentSession false parseOk) = true := by
  cases cookiesOk <;> cases parseOk <;> exact ⟨rfl, rfl, rfl⟩

/-- C9 counterexample: invoked with no saved session file (and no token
path at all), the agent-worker's `scrapeMeetingContent` does not fail
immediately: it builds a fresh context and proceeds to navigation, so the
claim does not hold of every Browser Extraction Agent invocation. -/
theorem scrapeMeetingContent_proceeds_without_auth :
    scrapeMeetingContentSession false false = SessionStart.freshContext ∧
    sessionProceedsToNavigation (scrapeMeetingContentSession false false) = true ∧
    ∀ e, scrapeMeetingContentSession false false ≠ SessionStart.failNoAuth e := by
  refine ⟨rfl, rfl, fun e => ?_⟩
  simp [scrapeMeetingContentSession]

/- ### Theorems about the Coordinator (C1, C7) -/

/-- C1 (amended): provided every attempted status write succeeds, a
`processPage` run writes `Processing` as its very first side effect (before
any extraction work), then writes exactly one terminal status — `Done` when
scraper, analyst and writer all produce usable results, `Error` otherwise —
so the observed status sequence is `[Processing, Done]` or
`[Processing, Error]`: it never regresses and never reaches a terminal
status without `Processing` having been written first. -/
theorem processPage_status_machine (env : ProcEnv) (h : ∀ i, env.updOk i = true) :
    (processPage env).head? = some (PEvent.upd MStatus.processing true) ∧
    (observedStatuses (processPage env) = [MStatus.processing, MStatus.done] ∨
     observedStatuses (processPage env) = [MStatus.processing, MStatus.error]) ∧
    (observedStatuses (processPage env) = [MStatus.processing, MStatus.done] ↔
      env.scraperOk = true ∧ env.analystOk = true ∧ env.writerOk = true) := by
  obtain ⟨updOk, sOk, aOk, wOk⟩ := env
  have h0 := h 0
  have h1 := h 1
  simp only at h0 h1
  cases sOk <;> cases aOk <;> cases wOk <;>
    simp [processPage, observedStatuses, h0, h1, List.filterMap]

/-- A `processPage` environment in which every status write succeeds and
every stage is productive. -/
def allOkEnv : ProcEnv where
  updOk := fun _ => true
  scraperOk := true
  analystOk := true
  writerOk := true

/-- A `processPage` environment in which the initial `Processing` status
write fails (the Notion update throws) while every later status write
succeeds and every stage would be productive. -/
def firstWriteFailsEnv : ProcEnv where
  updOk := fun i => i != 0
  scraperOk := true
  analystOk := true
  writerOk := true

/-- C1 witness: with all status writes succeeding and all stages productive,
the observed status sequence is exactly `[Processing, Done]`, starting with
the `Processing` write. -/
theorem processPage_status_machine_witness :
    (processPage allOkEnv).head? = some (PEvent.upd MStatus.processing true) ∧
    (observedStatuses (processPage allOkEnv) = [MStatus.processing, MStatus.done] ∨
     observedStatuses (processPage allOkEnv) = [MStatus.processing, MStatus.error]) ∧
    (observedStatuses (processPage allOkEnv) = [MStatus.processing, MStatus.done] ↔
      allOkEnv.scraperOk = true ∧ allOkEnv.analystOk = true ∧ allOkEnv.writerOk = true) :=
  processPage_status_machine allOkEnv (fun _ => rfl)

/-- C1 counterexample: when the initial `Processing` write itself fails and
the subsequent `Error` write succeeds, the page observes the single status
write `Error` — a terminal status reached without `Processing` ever having
been written, so the observed sequence (continuing the initial
`Ready to Process`) is not a prefix of `Processing, Done` nor of
`Processing, Error`. -/
theorem processPage_error_without_processing :
    observedStatuses (processPage firstWriteFailsEnv) = [MStatus.error] ∧
    MStatus.processing ∉ observedStatuses (processPage firstWriteFailsEnv) ∧
    (observedStatuses (processPage firstWriteFailsEnv)).isPrefixOf
      [MStatus.processing, MStatus.done] = false ∧
    (observedStatuses (processPage firstWriteFailsEnv)).isPrefixOf
      [MStatus.processing, MStatus.error] = false := by
  refine ⟨by decide, by decide, by decide, by decide⟩

/-- C7 (amended): a discovery-query failure is caught and logged inside
`findPagesToProcess`, which returns the empty page list; the poll cycle
then waits the regular `pollInterval` (not the fixed 30-second fallback,
which applies only to errors escaping the loop body) and the loop never
terminates. -/
theorem coordinatorCycle_survives_query_failure
    (q : Except String (List String)) (pollInterval : Nat) :
    runCoordinatorCycle q pollInterval =
      { processed := findPagesToProcess q, waitMs := pollInterval, terminated := false } ∧
    (∀ e, findPagesToProcess (Except.error e) = []) ∧
    (runCoordinatorCycle q pollInterval).terminated = false := by
  refine ⟨?_, fun e => rfl, ?_⟩ <;> cases q <;> rfl

/-- C7 counterexample: with `pollInterval = 60000`, a failing discovery
query leaves the cycle waiting 60000 ms — the regular poll interval, not a
fixed fallback delay independent of `pollInterval` (30000 ms in the
`catch`), refuting the claimed fixed-delay behaviour. -/
theorem coordinatorCycle_query_failure_waits_pollInterval :
    runCoordinatorCycle (Except.error "query failed") 60000 =
      { processed := [], waitMs := 60000, terminated := false } ∧
    (runCoordinatorCycle (Except.error "query failed") 60000).waitMs ≠ 30000 := by
  refine ⟨rfl, by decide⟩

/- ### Theorems about the Write-Back Agent (C3, C4, C10) -/

/-- C3 (amended): the Write-Back result has `success = true` iff (the input
had zero action items, or at least one record was created) and the
page-annotation step did not throw; an annotation failure yields
`success = false` even when the record-creation condition holds. -/
theorem writeToNotion_success_iff (items : List WActionItem) (summary : Option String)
    (createOutcome : Nat → Option String) (aT aS : Option String) :
    (writeToNotion items summary createOutcome aT aS).success = true ↔
      ((items = [] ∨ createTasks items createOutcome ≠ []) ∧
       (updateMeetingPage (createTasks items createOutcome) summary aT aS).2 = none) := by
  unfold writeToNotion
  by_cases hzero : (createTasks items createOutcome).length = 0 ∧ items.length > 0
  · rw [if_pos hzero]
    obtain ⟨h1, h2⟩ := hzero
    have hids : createTasks items createOutcome = [] := List.length_eq_zero.mp h1
    have hitems : items ≠ [] := by
      intro h
      rw [h] at h2
      simp at h2
    simp [hids, hitems]
  · rw [if_neg hzero]
    have hor : items = [] ∨ createTasks items createOutcome ≠ [] := by
      by_cases hi : items = []
      · exact Or.inl hi
      · right
        intro hc
        exact hzero ⟨by rw [hc]; rfl, List.length_pos.mpr hi⟩
    cases hupd : (updateMeetingPage (createTasks items createOutcome) summary aT aS).2 with
    | none => simp [hupd, hor]
    | some e => simp [hupd]

/-- C3 counterexample: with zero action items, a supplied summary, and a
summary-append that throws, the claim's right-hand side holds (zero action
items — vacuous success) yet the returned `success` is `false`, refuting
the claimed equivalence. -/
theorem writeToNotion_annotation_failure_fails_vacuous_input :
    ([] : List WActionItem).length = 0 ∧
    (writeToNotion [] (some "встреча прошла") (fun _ => none) none
      (some "append failed")).success = false ∧
    (writeToNotion [] (some "встреча прошла") (fun _ => none) none
      (some "append failed")).error
      = some "Ошибка при записи в Notion: append failed" := by
  refine ⟨rfl, by decide, by decide⟩

/-- Every action item is attempted exactly once, in input order, whatever
the creation outcomes are. -/
theorem createTasksAttempts_length (createOutcome : Nat → Option String) :
    ∀ (items : List WActionItem) (i : Nat),
      (createTasksAttempts createOutcome items i).length = items.length := by
  intro items
  induction items with
  | nil => intro i; rfl
  | cons it rest ih => intro i; simp [createTasksAttempts, ih (i + 1)]

/-- The attempted creations carry exactly the per-item `properties` records,
in input order, whatever the creation outcomes are. -/
theorem createTasksAttempts_map_fst (createOutcome : Nat → Option String) :
    ∀ (items : List WActionItem) (i : Nat),
      (createTasksAttempts createOutcome items i).map (·.1) = items.map taskProperties := by
  intro items
  induction items with
  | nil => intro i; rfl
  | cons it rest ih => intro i; simp [createTasksAttempts, ih (i + 1)]

/-- The three action items of the concrete partial-failure scenario. -/
def c4Items : List WActionItem :=
  [{ title := "Item 1" }, { title := "Item 2" }, { title := "Item 3" }]

/-- Creation outcomes for the scenario: item 2 (index 1) throws, items 1
and 3 are created as `id1` and `id3`. -/
def c4Create : Nat → Option String :=
  fun i => if i = 0 then some "id1" else if i = 2 then some "id3" else none

/-- C4: a single item's creation failure is skipped without aborting the
loop — every item is still attempted, in order, under any outcomes — and in
the concrete scenario of 3 action items where item 2's creation throws, the
Write-Back Agent returns `success = true` with exactly the created ids of
items 1 and 3. -/
theorem writeToNotion_partial_failure_tolerant
    (items : List WActionItem) (createOutcome : Nat → Option String) :
    (createTasksAttempts createOutcome items 0).length = items.length ∧
    (createTasksAttempts createOutcome items 0).map (·.1) = items.map taskProperties ∧
    (writeToNotion c4Items none c4Create none none).success = true ∧
    (writeToNotion c4Items none c4Create none none).taskIds = some ["id1", "id3"] := by
  refine ⟨createTasksAttempts_length createOutcome items 0,
    createTasksAttempts_map_fst createOutcome items 0, by decide, by decide⟩

/-- C10: with zero created task records, `updateMeetingPage` appends no
task-count block (no heading, no bullet); it appends a summary callout iff
a non-empty summary is supplied; and with neither tasks nor summary the
page receives no annotation at all. -/
theorem updateMeetingPage_zero_tasks_frame (summary : Option String) :
    (updateMeetingPage [] summary none none).1 =
      (if truthyS summary = true then [NBlock.callout (summary.getD "")] else []) ∧
    (∀ t, NBlock.heading t ∉ (updateMeetingPage [] summary none none).1) ∧
    (∀ t, NBlock.bullet t ∉ (updateMeetingPage [] summary none none).1) ∧
    (updateMeetingPage [] none none none).1 = [] ∧
    (updateMeetingPage [] summary none none).2 = none := by
  cases summary with
  | none => refine ⟨rfl, fun t => by simp [updateMeetingPage, summaryAppend], 
      fun t => by simp [updateMeetingPage, summaryAppend], rfl, rfl⟩
  | some s =>
    by_cases hs : s = ""
    · subst hs
      refine ⟨by simp [updateMeetingPage, summaryAppend, truthyS], 
        fun t => by simp [updateMeetingPage, summaryAppend],
        fun t => by simp [updateMeetingPage, summaryAppend], rfl, rfl⟩
    · refine ⟨by simp [updateMeetingPage, summaryAppend, truthyS, hs],
        fun t => by simp [updateMeetingPage, summaryAppend, hs],
        fun t => by simp [updateMeetingPage, summaryAppend, hs], rfl,
        by simp [updateMeetingPage, summaryAppend, hs]⟩

/- ### Lemmas about the analyst normalization (C8) -/

/-- Re-normalizing a title is the identity: a kept truthy title stays
truthy, and a collapsed empty-string title is falsy and collapses to
itself. -/
theorem title_norm_fix (t : Json) :
    (if jsTruthy (if jsTruthy t = true then t else Json.str "") = true
     then (if jsTruthy t = true then t else Json.str "") else Json.str "")
      = (if jsTruthy t = true then t else Json.str "") := by
  by_cases ht : jsTruthy t = true
  · simp [ht]
  · rw [if_neg ht]
    simp [jsTruthy]

/-- `item.title || ''` is already a fixed point after one normalization. -/
theorem titleOf_fix (x : Json) :
    (if jsTruthy (titleOf x) = true then titleOf x else Json.str "") = titleOf x := by
  unfold titleOf
  cases hg : getField x "title" with
  | none => simp [jsTruthy]
  | some t => exact title_norm_fix t

/-- Field lookup on a re-encoded normalized action item. -/
theorem getField_encodeActionItem (a : AActionItem) :
    getField (encodeActionItem a) "title" = some a.title ∧
    getField (encodeActionItem a) "description" = a.description ∧
    getField (encodeActionItem a) "assignee" = a.assignee ∧
    getField (encodeActionItem a) "dueDate" = a.dueDate ∧
    getField (encodeActionItem a) "priority" = a.priority := by
  obtain ⟨t, d, asn, dd, p⟩ := a
  cases d <;> cases asn <;> cases dd <;> cases p <;>
    simp [encodeActionItem, optField, getField, List.find?]

/-- Normalizing a re-encoded normalized action item only re-normalizes the
title and passes every optional field through. -/
theorem normActionItem_encode (a : AActionItem) :
    normActionItem (encodeActionItem a) =
      { title := if jsTruthy a.title = true then a.title else Json.str "",
        description := a.description, assignee := a.assignee,
        dueDate := a.dueDate, priority := a.priority } := by
  obtain ⟨h1, h2, h3, h4, h5⟩ := getField_encodeActionItem a
  simp [normActionItem, titleOf, h1, h2, h3, h4, h5]

/-- One round trip through encode-then-normalize is the identity on
normalized action items. -/
theorem normActionItem_round (x : Json) :
    normActionItem (encodeActionItem (normActionItem x)) = normActionItem x := by
  rw [normActionItem_encode]
  simp only [normActionItem]
  rw [titleOf_fix]

/-- Field lookup on a re-encoded normalized key decision. -/
theorem getField_encodeKeyDecision (d : AKeyDecision) :
    getField (encodeKeyDecision d) "title" = some d.title ∧
    getField (encodeKeyDecision d) "description" = d.description ∧
    getField (encodeKeyDecision d) "context" = d.context := by
  obtain ⟨t, ds, c⟩ := d
  cases ds <;> cases c <;>
    simp [encodeKeyDecision, optField, getField, List.find?]

/-- Normalizing a re-encoded normalized key decision only re-normalizes the
title and passes the optional fields through. -/
theorem normKeyDecision_encode (d : AKeyDecision) :
    normKeyDecision (encodeKeyDecision d) =
      { title := if jsTruthy d.title = true then d.title else Json.str "",
        description := d.description, context := d.context } := by
  obtain ⟨h1, h2, h3⟩ := getField_encodeKeyDecision d
  simp [normKeyDecision, titleOf, h1, h2, h3]

/-- One round trip through encode-then-normalize is the identity on
normalized key decisions. -/
theorem normKeyDecision_round (x : Json) :
    normKeyDecision (encodeKeyDecision (normKeyDecision x)) = normKeyDecision x := by
  rw [normKeyDecision_encode]
  simp only [normKeyDecision]
  rw [titleOf_fix]

/-- Round-trip stability extends over the mapped action-item list. -/
theorem normActionItem_round_list (xs : List Json) :
    ((xs.map normActionItem).map encodeActionItem).map normActionItem
      = xs.map normActionItem := by
  induction xs with
  | nil => rfl
  | cons x rest ih => simp only [List.map_cons, normActionItem_round, List.map_map] at ih ⊢; rw [ih]

/-- Round-trip stability extends over the mapped key-decision list. -/
theorem normKeyDecision_round_list (xs : List Json) :
    ((xs.map normKeyDecision).map encodeKeyDecision).map normKeyDecision
      = xs.map normKeyDecision := by
  induction xs with
  | nil => rfl
  | cons x rest ih => simp only [List.map_cons, normKeyDecision_round, List.map_map] at ih ⊢; rw [ih]

/-- Field lookup on a re-encoded normalized meeting-data value. -/
theorem getField_encodeMeetingData (d : AMeetingData) :
    getField (encodeMeetingData d) "actionItems"
      = some (Json.arr (d.actionItems.map encodeActionItem)) ∧
    getField (encodeMeetingData d) "keyDecisions"
      = some (Json.arr (d.keyDecisions.map encodeKeyDecision)) ∧
    getField (encodeMeetingData d) "summary" = d.summary := by
  obtain ⟨ai, kd, s⟩ := d
  cases s <;> simp [encodeMeetingData, optField, getField, List.find?]

/-- Normalizing a re-encoded normalized meeting-data value maps the two
arrays element-wise and passes `summary` through. -/
theorem normalizeAnalyst_encode (d : AMeetingData) :
    normalizeAnalyst (encodeMeetingData d) =
      { actionItems := (d.actionItems.map encodeActionItem).map normActionItem,
        keyDecisions := (d.keyDecisions.map encodeKeyDecision).map normKeyDecision,
        summary := d.summary } := by
  obtain ⟨h1, h2, h3⟩ := getField_encodeMeetingData d
  simp [normalizeAnalyst, h1, h2, h3]

/-- C8: the analyst's normalization is idempotent — feeding its own
normalized output (viewed again as JSON) back through the normalization
yields an identical structure, and in particular preserves the element
counts of `actionItems` and `keyDecisions`. -/
theorem normalizeAnalyst_idempotent (j : Json) :
    normalizeAnalyst (encodeMeetingData (normalizeAnalyst j)) = normalizeAnalyst j ∧
    (normalizeAnalyst (encodeMeetingData (normalizeAnalyst j))).actionItems.length
      = (normalizeAnalyst j).actionItems.length ∧
    (normalizeAnalyst (encodeMeetingData (normalizeAnalyst j))).keyDecisions.length
      = (normalizeAnalyst j).keyDecisions.length := by
  have hai : (((normalizeAnalyst j).actionItems).map encodeActionItem).map normActionItem
      = (normalizeAnalyst j).actionItems := by
    simp only [normalizeAnalyst]
    cases hg : getField j "actionItems" with
    | none => rfl
    | some v =>
      cases v
      case arr xs => exact normActionItem_round_list xs
      all_goals rfl
  have hkd : (((normalizeAnalyst j).keyDecisions).map encodeKeyDecision).map normKeyDecision
      = (normalizeAnalyst j).keyDecisions := by
    simp only [normalizeAnalyst]
    cases hg : getField j "keyDecisions" with
    | none => rfl
    | some v =>
      cases v
      case arr xs => exact normKeyDecision_round_list xs
      all_goals rfl
  have h : normalizeAnalyst (encodeMeetingData (normalizeAnalyst j)) = normalizeAnalyst j := by
    rw [normalizeAnalyst_encode, hai, hkd]
  exact ⟨h, by rw [h], by rw [h]⟩
